import Mathlib

/-!
Verification of the eventhub events-search route (the pipeline
validation → date-window normalization → cache lookup → upstream fetch →
normalization → re-filter → sort → cache store → response).

The embedding is a shallow model of the TypeScript route handler.  JavaScript
runtime primitives are modelled as follows:

* JS `Date` time values are `Int` epoch milliseconds.  `new Date(y, m, d, ...)`
  (local-time construction) is modelled with a fixed UTC offset `tz`, given in
  minutes as `Date.prototype.getTimezoneOffset` reports it (UTC = local clock
  plus `tz` minutes); daylight-saving transitions are not modelled.  An invalid
  date (`NaN` time value) is `Option.none`.
* JS `Number(string)` is modelled by `jsNumberInt` / `jsNumberQ` on the string
  shapes this route actually sees (digit strings, optional sign and decimal
  point, the empty string, and arbitrary non-numeric junk); `none` models `NaN`.
  Exponent/hex/Infinity forms are outside the modelled subset.
* JS `Date.parse` is an engine primitive and is passed to the pipeline as an
  explicit function parameter `dateParse : String → Option Int` (`none` = NaN).
* The ISO rendering of a whole-second instant is injective, so ISO strings are
  represented by their millisecond value; `toIsoNoMs` (which drops the `.mmm`
  milliseconds field from `Date.prototype.toISOString`) becomes flooring to a
  whole second.
-/

namespace EventsApi

/-- JS whitespace test for the characters relevant to `String.prototype.trim`
on query inputs. -/
def isWsChar (c : Char) : Bool :=
  c = ' ' || c = '\t' || c = '\n' || c = '\r'

/-- Models JS `String.prototype.trim` (strip leading and trailing whitespace). -/
def jsTrim (s : String) : String :=
  ⟨((s.toList.dropWhile isWsChar).reverse.dropWhile isWsChar).reverse⟩

/-- Splits a character list at every occurrence of `sep`, as JS
`String.prototype.split` does: `"".split(sep)` is `[""]`, and separators at the
ends produce empty segments. -/
def splitOnChar (sep : Char) : List Char → List (List Char)
  | [] => [[]]
  | c :: cs =>
    let r := splitOnChar sep cs
    if c = sep then [] :: r
    else
      match r with
      | [] => [[c]]
      | seg :: rest => (c :: seg) :: rest

/-- Decimal value of a digit list (digits are assumed checked by the caller). -/
def charsToNat (cs : List Char) : Nat :=
  cs.foldl (fun n c => 10 * n + (c.toNat - 48)) 0

/-- Models JS `Number()` on the pieces of a split date string: the empty string
coerces to `0`, a nonempty digit string to its value, anything else to `NaN`
(`none`).  Signs, decimal points and exponents never reach this helper in the
route (date pieces are separated by `-`). -/
def jsNumberInt (cs : List Char) : Option Int :=
  if cs = [] then some 0
  else if cs.all Char.isDigit then some (Int.ofNat (charsToNat cs))
  else none

/-- Models JS `Number(string)` for query-parameter coercion: optional leading
minus sign, digits with at most one decimal point, empty string is `0`,
anything else is `NaN` (`none`).  Exponent, hexadecimal and `Infinity` forms
are outside the modelled subset (all uses in the verified properties are plain
decimals or non-numeric junk, and every numeric field is range-checked on both
sides so the distinction cannot change a validation outcome used here). -/
def jsNumberQ (s : String) : Option ℚ :=
  let cs := (jsTrim s).toList
  if cs = [] then some 0
  else
    let sgn : ℚ := match cs with
      | '-' :: _ => -1
      | _ => 1
    let body : List Char := match cs with
      | '-' :: rest => rest
      | _ => cs
    match splitOnChar '.' body with
    | [ip] =>
      if ip ≠ [] ∧ ip.all Char.isDigit then some (sgn * (charsToNat ip : ℚ))
      else none
    | [ip, fp] =>
      if (ip ++ fp) ≠ [] ∧ (ip ++ fp).all Char.isDigit then
        some (sgn * ((charsToNat ip : ℚ) + (charsToNat fp : ℚ) / ((10 : ℚ) ^ fp.length)))
      else none
    | _ => none

/-- Days from 1970-01-01 of the proleptic Gregorian civil date `(y, m, d)`,
for `m ∈ [1, 12]` (day `d` may be any integer; excess days roll over, matching
the day arithmetic of JS `MakeDay`). -/
def daysFromCivil (y m d : Int) : Int :=
  let y1 := if m ≤ 2 then y - 1 else y
  let era := Int.fdiv y1 400
  let yoe := y1 - era * 400
  let mp := Int.emod (m + 9) 12
  let doy := Int.fdiv (153 * mp + 2) 5 + d - 1
  let doe := yoe * 365 + Int.fdiv yoe 4 - Int.fdiv yoe 100 + doy
  era * 146097 + doe - 719468

/-- JS `MakeDay`: months outside `[0, 11]` roll the year, days roll the month.
`m0` is the zero-based month as passed to the `Date` constructor. -/
def jsMakeDay (y m0 d : Int) : Int :=
  let ym := y + Int.fdiv m0 12
  let mm := m0 - 12 * Int.fdiv m0 12
  daysFromCivil ym (mm + 1) 1 + (d - 1)

/-- JS `Date` constructor year adjustment: years `0..99` mean `1900 + y`. -/
def jsYearAdjust (y : Int) : Int :=
  if 0 ≤ y ∧ y ≤ 99 then y + 1900 else y

/-- Time value (epoch ms) of `new Date(y, m0, d, hh, mi, ss, ms)` under the
fixed timezone offset `tz` (minutes, `getTimezoneOffset` sign convention). -/
def jsLocalDateMs (tz y m0 d hh mi ss ms : Int) : Int :=
  jsMakeDay (jsYearAdjust y) m0 d * 86400000
    + ((hh * 60 + mi) * 60 + ss) * 1000 + ms + tz * 60000

/-- JS `TimeClip`: a time value is valid iff its magnitude is at most
8.64e15 ms; otherwise the `Date` is invalid (`NaN`). -/
def jsDateValid (t : Int) : Bool :=
  t.natAbs ≤ 8640000000000000

/-- Models `toIsoNoMs` from the route: rendering a time value with
`toISOString` and deleting the `.mmm` milliseconds field floors the instant to
a whole second. -/
def toIsoNoMs (t : Int) : Int :=
  Int.fdiv t 1000 * 1000

/-- Time value of `new Date(y, (m ?? 1) - 1, d ?? 1, hh, mi, ss, ms)` where
`[y, m, d] = s.split("-").map(Number)`, i.e. the shared body of the route's
`ymdToLocalStart` / `ymdToLocalEnd` and of the date-only branch of the
re-filter.  `none` models an invalid date. -/
def ymdToLocalMs (tz : Int) (s : String) (hh mi ss ms : Int) : Option Int :=
  let ps := (splitOnChar '-' s.toList).map jsNumberInt
  let yv : Option Int := (ps.get? 0).join
  let mv : Option Int := match ps.get? 1 with
    | none => some 1
    | some v => v
  let dv : Option Int := match ps.get? 2 with
    | none => some 1
    | some v => v
  match yv, mv, dv with
  | some y, some m, some d =>
    let t := jsLocalDateMs tz y (m - 1) d hh mi ss ms
    if jsDateValid t then some t else none
  | _, _, _ => none

/-- `ymdToLocalStart` from the route: local midnight of the date string. -/
def ymdToLocalStart (tz : Int) (s : String) : Option Int :=
  ymdToLocalMs tz s 0 0 0 0

/-- `ymdToLocalEnd` from the route: local 23:59:59.999 of the date string. -/
def ymdToLocalEnd (tz : Int) (s : String) : Option Int :=
  ymdToLocalMs tz s 23 59 59 999

/-- `startIsoFromYMD` from the route.  A missing or empty (falsy) input
defaults to `new Date()` (the clock reading `now`); otherwise the local
midnight of the date.  `none` models the `RangeError` thrown by rendering an
invalid date with `toISOString`. -/
def startIsoFromYMD (tz now : Int) : Option String → Option Int
  | some s => if s = "" then some (toIsoNoMs now) else (ymdToLocalStart tz s).map toIsoNoMs
  | none => some (toIsoNoMs now)

/-- `endIsoFromYMD` from the route.  The outer `none` models a thrown
`RangeError`; `some none` models `undefined` (open-ended window). -/
def endIsoFromYMD (tz : Int) : Option String → Option (Option Int)
  | some s =>
    if s = "" then some none
    else (ymdToLocalEnd tz s).map (fun t => some (toIsoNoMs t))
  | none => some none

/-- `MAX_WINDOW_MS` from the route: 180 days in milliseconds. -/
def MAX_WINDOW_MS : Int := 1000 * 60 * 60 * 24 * 180

/-- `TTL_MS` from the route: five minutes. -/
def TTL_MS : Int := 1000 * 60 * 5

/-- The window before the swap/cap steps: `startIsoFromYMD(from)` paired with
`endIsoFromYMD(to)`; `none` models a thrown `RangeError` in either helper. -/
def rawWindow (tz now : Int) (fromP toP : Option String) : Option (Int × Option Int) :=
  match startIsoFromYMD tz now fromP with
  | none => none
  | some s =>
    match endIsoFromYMD tz toP with
    | none => none
    | some e => some (s, e)

/-- The swap step: `if (endISO && new Date(startISO) > new Date(endISO)) swap`. -/
def swapWindow (s : Int) (e : Option Int) : Int × Option Int :=
  match e with
  | some e0 => if e0 < s then (e0, some s) else (s, some e0)
  | none => (s, none)

/-- The cap step: if `end - start` exceeds `MAX_WINDOW_MS`, replace `end` by
`toIsoNoMs(new Date(start + MAX_WINDOW_MS))`.  Rendering that date throws if
the time value is out of `Date` range, hence the `Option`. -/
def capWindow (s : Int) (e : Option Int) : Option (Int × Option Int) :=
  match e with
  | some e0 =>
    if MAX_WINDOW_MS < e0 - s then
      let t := s + MAX_WINDOW_MS
      if jsDateValid t then some (s, some (toIsoNoMs t)) else none
    else some (s, some e0)
  | none => some (s, none)

/-- Lines 277–292 of the route: resolve `from`/`to` into `[startISO, endISO]`,
swap a reversed pair and cap the span at 180 days. -/
def normalizeWindow (tz now : Int) (fromP toP : Option String) : Option (Int × Option Int) :=
  match rawWindow tz now fromP toP with
  | none => none
  | some (s0, e0) =>
    let p := swapWindow s0 e0
    capWindow p.1 p.2

/-- The raw query-parameter mapping of a request: `Object.fromEntries` of the
search params restricted to the keys the route reads (duplicates resolve to
the last value, extra keys are stripped by the schema).  `nocache` and `debug`
are read from the raw search params, not through the schema. -/
structure RawQuery where
  q : Option String
  lat : Option String
  lng : Option String
  radius : Option String
  fromP : Option String
  toP : Option String
  page : Option String
  nocache : Option String
  debug : Option String
deriving DecidableEq

/-- The result of a successful `QuerySchema.safeParse`: values typed by zod. -/
structure ParsedQuery where
  q : Option String
  lat : Option ℚ
  lng : Option ℚ
  radius : ℚ
  fromP : Option String
  toP : Option String
  page : ℚ
deriving DecidableEq

/-- zod `z.coerce.number().min(lo).max(hi).optional()`: a missing value passes
as `undefined`; a present value is coerced with `Number()` (NaN fails) and
range-checked. -/
def zOptNumber (lo hi : ℚ) : Option String → Option (Option ℚ)
  | none => some none
  | some s =>
    match jsNumberQ s with
    | none => none
    | some x => if lo ≤ x ∧ x ≤ hi then some (some x) else none

/-- zod `z.coerce.number().min(lo).max(hi).default(d)`. -/
def zNumberDefault (lo hi d : ℚ) : Option String → Option ℚ
  | none => some d
  | some s =>
    match jsNumberQ s with
    | none => none
    | some x => if lo ≤ x ∧ x ≤ hi then some x else none

/-- zod `z.string().trim().max(n).optional()`: trim transforms, then the
length bound is checked (rejection, not truncation). -/
def zStringTrimMax (n : Nat) : Option String → Option (Option String)
  | none => some none
  | some s =>
    let t := jsTrim s
    if t.length ≤ n then some (some t) else none

/-- `QuerySchema.safeParse` of the route (lines 197–205): `q` trimmed and
capped at 80, `lat`/`lng`/`radius`/`page` coerced and range-checked with the
route's bounds and defaults, `from`/`to` accepted as arbitrary strings (the
schema performs no date-format validation).  `none` models a failed parse
(the 400 response); the per-field error details are abstracted away. -/
def validateQuery (r : RawQuery) : Option ParsedQuery :=
  match zStringTrimMax 80 r.q, zOptNumber (-90) 90 r.lat, zOptNumber (-180) 180 r.lng,
      zNumberDefault 1 1000 25 r.radius, zNumberDefault 0 49 0 r.page with
  | some q, some lat, some lng, some radius, some page =>
    some ⟨q, lat, lng, radius, r.fromP, r.toP, page⟩
  | _, _, _, _, _ => none

/-- An upstream object carrying only a `name` (segment / genre of a
classification). -/
structure RawNamed where
  name : Option String
deriving DecidableEq

/-- One entry of `ev.classifications`. -/
structure RawClassification where
  segment : Option RawNamed
  genre : Option RawNamed
deriving DecidableEq

/-- `venue.location`.  The upstream API serializes coordinates as strings. -/
structure RawLocation where
  latitude : Option String
  longitude : Option String
deriving DecidableEq

/-- `venue.city`. -/
structure RawCity where
  name : Option String
deriving DecidableEq

/-- One entry of `ev._embedded.venues`. -/
structure RawVenue where
  name : Option String
  city : Option RawCity
  location : Option RawLocation
deriving DecidableEq

/-- One entry of `ev.priceRanges`. -/
structure RawPrice where
  min : Option ℚ
  max : Option ℚ
  currency : Option String
deriving DecidableEq

/-- One entry of `ev.images`. -/
structure RawImage where
  width : Option ℚ
  url : Option String
deriving DecidableEq

/-- `ev.dates.start`. -/
structure RawStart where
  dateTime : Option String
  localDate : Option String
deriving DecidableEq

/-- `ev.dates`. -/
structure RawDates where
  start : Option RawStart
deriving DecidableEq

/-- One raw upstream event record.  `venues` stands for `ev._embedded?.venues`
(the intermediate `_embedded` wrapper is flattened); `priceRanges = none`
models both an absent field and a non-array value (the route guards with
`Array.isArray`). -/
structure RawEvent where
  id : String
  name : String
  url : Option String
  dates : Option RawDates
  priceRanges : Option (List RawPrice)
  classifications : Option (List RawClassification)
  images : Option (List RawImage)
  venues : Option (List RawVenue)
deriving DecidableEq

/-- `raw.page` of the upstream payload. -/
structure RawPage where
  number : Option Int
  totalPages : Option Int
  totalElements : Option Int
deriving DecidableEq

/-- The upstream JSON payload: `events` stands for `raw?._embedded?.events`. -/
structure RawPayload where
  events : Option (List RawEvent)
  page : Option RawPage
deriving DecidableEq

/-- The normalized venue shape.  A coordinate component is `Option ℚ` with
`none` modelling `NaN` (the result of `Number()` on a non-numeric string). -/
structure NVenue where
  name : Option String
  city : Option String
  coords : Option (Option ℚ × Option ℚ)
deriving DecidableEq

/-- The normalized price range. -/
structure PriceRange where
  min : Option ℚ
  max : Option ℚ
  currency : Option String
deriving DecidableEq

/-- `NormalizedEvent` from the route. -/
structure NormalizedEvent where
  id : String
  title : String
  start : String
  ticketUrl : Option String
  priceRange : Option PriceRange
  categories : List String
  imageUrl : Option String
  venue : NVenue
deriving DecidableEq

/-- Pass-through pagination metadata. -/
structure PageInfo where
  page : Int
  totalPages : Int
  total : Int
deriving DecidableEq

/-- The success payload `{ results, pageInfo }`. -/
structure DataBody where
  results : List NormalizedEvent
  pageInfo : PageInfo
deriving DecidableEq

/-- JS truthiness of an optional string value (`undefined` and `""` are
falsy, every other string truthy). -/
def truthyS : Option String → Bool
  | some s => decide (¬ s = "")
  | none => false

/-- Descending-width comparison used by `pickImage`'s sort comparator
`(b.width ?? 0) - (a.width ?? 0)`. -/
def imgGe (a b : RawImage) : Prop :=
  (b.width.getD 0) ≤ (a.width.getD 0)

/-- Decidability of the image comparator. -/
instance imgGeDec : DecidableRel imgGe :=
  fun a b => inferInstanceAs (Decidable ((b.width.getD 0) ≤ (a.width.getD 0)))

/-- `pickImage` from the route (the "largest available" variant): stable-sort
the image list by descending declared width and take the first element's
`url`.  ES2019 `Array.prototype.sort` is a stable sort, so its result
coincides with a stable insertion sort under the same comparator. -/
def pickImage (images : Option (List RawImage)) : Option String :=
  match images with
  | none => none
  | some [] => none
  | some l => (@List.insertionSort _ imgGe imgGeDec l).head?.bind RawImage.url

/-- Names collected from `ev.classifications?.map(c => f(c)?.name)
.filter(Boolean) ?? []`: missing entries and empty strings are dropped. -/
def namesOf (cls : Option (List RawClassification))
    (f : RawClassification → Option RawNamed) : List String :=
  match cls with
  | none => []
  | some l =>
    l.filterMap fun c =>
      match (f c).bind RawNamed.name with
      | some "" => none
      | some s => some s
      | none => none

/-- `ev?._embedded?.venues?.[0]`. -/
def firstVenue (ev : RawEvent) : Option RawVenue :=
  ev.venues.bind List.head?

/-- The `coords` computation of the normalizer (lines 367–373):
`venue?.location?.latitude && venue?.location?.longitude` is a JS truthiness
test on the raw values, and the populated pair applies `Number()` to each
(which is `NaN`, modelled `none`, when the value does not parse). -/
def coordsOf (v : Option RawVenue) : Option (Option ℚ × Option ℚ) :=
  match v with
  | none => none
  | some v0 =>
    match v0.location with
    | none => none
    | some loc =>
      if truthyS loc.latitude && truthyS loc.longitude then
        some (jsNumberQ (loc.latitude.getD ""), jsNumberQ (loc.longitude.getD ""))
      else none

/-- The `start` computation: `ev.dates?.start?.dateTime ??
ev.dates?.start?.localDate ?? ""`. -/
def startOf (ev : RawEvent) : String :=
  match (ev.dates.bind RawDates.start).bind RawStart.dateTime with
  | some s => s
  | none =>
    match (ev.dates.bind RawDates.start).bind RawStart.localDate with
    | some s => s
    | none => ""

/-- The per-record normalizer of the route (lines 346–376). -/
def normalizeEvent (ev : RawEvent) : NormalizedEvent :=
  let price := ev.priceRanges.bind List.head?
  let venue := firstVenue ev
  ⟨ev.id, ev.name, startOf ev, ev.url,
    price.map (fun p => ⟨p.min, p.max, p.currency⟩),
    namesOf ev.classifications RawClassification.segment
      ++ namesOf ev.classifications RawClassification.genre,
    pickImage ev.images,
    ⟨venue.bind RawVenue.name, (venue.bind RawVenue.city).bind RawCity.name,
      coordsOf venue⟩⟩

/-- `pageInfo` built from the upstream payload (`?? 0` fallbacks). -/
def pageInfoOf (p : RawPayload) : PageInfo :=
  ⟨((p.page.bind RawPage.number).getD 0),
    ((p.page.bind RawPage.totalPages).getD 0),
    ((p.page.bind RawPage.totalElements).getD 0)⟩

/-- The regex test `/^\d{4}-\d{2}-\d{2}$/` of the re-filter. -/
def isYMDstr (s : String) : Bool :=
  match s.toList with
  | [a, b, c, d, h1, e, f, h2, g, i] =>
    a.isDigit && b.isDigit && c.isDigit && d.isDigit && (h1 = '-')
      && e.isDigit && f.isDigit && (h2 = '-') && g.isDigit && i.isDigit
  | _ => false

/-- The effective instant the re-filter compares (lines 384–391): the
`Date.parse` value, except that a `start` matching `YYYY-MM-DD` is recomputed
as local 23:59:59.999 of that date.  `none` models `NaN` (unparsable start, or
an invalid recomputed date, both of which fail the window comparison). -/
def effectiveInstant (tz : Int) (dateParse : String → Option Int) (s : String) : Option Int :=
  match dateParse s with
  | none => none
  | some ms0 => if isYMDstr s then ymdToLocalEnd tz s else some ms0

/-- The re-filter predicate: keep an event iff its effective instant exists
and lies in `[startMs, endMs-or-+infinity]`. -/
def keepEvent (tz : Int) (dateParse : String → Option Int) (sMs : Int)
    (eMs : Option Int) (ev : NormalizedEvent) : Bool :=
  match effectiveInstant tz dateParse ev.start with
  | none => false
  | some m =>
    decide (sMs ≤ m) &&
      (match eMs with
        | none => true
        | some e0 => decide (m ≤ e0))

/-- The sort comparator `(a, b) => Date.parse(a.start) - Date.parse(b.start)`
as a relation: ascending by parsed instant.  Every event reaching the sort has
a parsable `start` (the filter dropped the rest), so the `getD 0` default is
never observed. -/
def sortKeyLe (dateParse : String → Option Int) (a b : NormalizedEvent) : Prop :=
  (dateParse a.start).getD 0 ≤ (dateParse b.start).getD 0

/-- Decidability of the sort comparator. -/
instance sortKeyLeDec (dateParse : String → Option Int) : DecidableRel (sortKeyLe dateParse) :=
  fun a b =>
    inferInstanceAs (Decidable ((dateParse a.start).getD 0 ≤ (dateParse b.start).getD 0))

/-- `filtered.sort(...)`: a stable ascending sort by parsed instant (ES2019
`Array.prototype.sort` is stable, so insertion sort models it exactly). -/
def sortEvents (dateParse : String → Option Int) (l : List NormalizedEvent) :
    List NormalizedEvent :=
  @List.insertionSort _ (sortKeyLe dateParse) (sortKeyLeDec dateParse) l

/-- The cache key: `JSON.stringify({ q, lat, lng, radius, startISO, endISO,
page })`.  With the fixed key order and JSON's injective escaping, the
serialization is injective on these tuples, so the tuple itself models the
fingerprint string. -/
structure CacheKey where
  q : Option String
  lat : Option ℚ
  lng : Option ℚ
  radius : ℚ
  startISO : Int
  endISO : Option Int
  page : ℚ
deriving DecidableEq

/-- The upstream query parameter set built at lines 305–319, which renders to
`tmUrl` (`TM_BASE + "?" + params.toString()`); the rendering is injective on
this structure, so the structure models the URL. -/
structure TmParams where
  apikey : String
  size : String
  page : ℚ
  sort : String
  locale : String
  keyword : Option String
  latlong : Option (ℚ × ℚ)
  radius : Option ℚ
  unit : Option String
  startDateTime : Int
  endDateTime : Option Int
deriving DecidableEq

/-- Builds the upstream parameter set: `keyword` only for a truthy `q`, geo
parameters only when both coordinates are present, `startDateTime` always,
`endDateTime` only when resolved. -/
def mkTmParams (key : String) (pq : ParsedQuery) (s : Int) (e : Option Int) : TmParams :=
  ⟨key, "100", pq.page, "relevance,desc", "*",
    (match pq.q with
      | some "" => none
      | some t => some t
      | none => none),
    (match pq.lat, pq.lng with
      | some a, some b => some (a, b)
      | _, _ => none),
    (match pq.lat, pq.lng with
      | some _, some _ => some pq.radius
      | _, _ => none),
    (match pq.lat, pq.lng with
      | some _, some _ => some "km"
      | _, _ => none),
    s, e⟩

/-- A response body of the route.  `invalidQuery` abstracts the zod
field-error details; `debugInfo` and `tmFailed` embed the upstream URL as its
parameter set. -/
inductive Body
  | missingKey
  | invalidQuery
  | debugInfo (startISO : Int) (endISO : Option Int) (tmUrl : TmParams)
  | tmFailed (details : String) (tmUrl : TmParams)
  | data (d : DataBody)
deriving DecidableEq

/-- A cache entry: write timestamp and the stored response data. -/
structure CacheEntry where
  ts : Int
  data : Body
deriving DecidableEq

/-- The module-level `Map` cache, as a function from fingerprints. -/
def Cache : Type := CacheKey → Option CacheEntry

/-- The empty cache (process start). -/
def emptyCache : Cache := fun _ => none

/-- `cache.set(key, { ts, data })`. -/
def cacheInsert (c : Cache) (ck : CacheKey) (ent : CacheEntry) : Cache :=
  fun k => if k = ck then some ent else c k

/-- The cache lookup of lines 298–301: a hit needs an entry under the exact
fingerprint whose age `now - ts` is strictly below the TTL. -/
def lookupHit (c : Cache) (now : Int) (ck : CacheKey) : Option Body :=
  match c ck with
  | some ent => if now - ent.ts < TTL_MS then some ent.data else none
  | none => none

/-- The result of the upstream `fetch`: `ok` wraps the decoded JSON payload
(2xx), `err` carries a non-2xx status and the best-effort error body. -/
inductive Fetched
  | ok (payload : RawPayload)
  | err (status : Int) (details : String)
deriving DecidableEq

/-- What a request produces: an HTTP response, or an uncaught exception
escaping the handler. -/
inductive Outcome
  | thrown
  | resp (status : Int) (body : Body)
deriving DecidableEq

/-- A full invocation result: the outcome, the cache state afterwards, and
whether the upstream service was called. -/
structure GetResult where
  out : Outcome
  cache : Cache
  upstream : Bool

/-- The fingerprint of a request from its validated query and resolved
window. -/
def mkKey (pq : ParsedQuery) (s : Int) (e : Option Int) : CacheKey :=
  ⟨pq.q, pq.lat, pq.lng, pq.radius, s, e, pq.page⟩

/-- The `{ results: filtered-and-sorted, pageInfo }` success payload computed
from an upstream payload under the resolved window. -/
def buildData (tz : Int) (dateParse : String → Option Int) (s : Int) (e : Option Int)
    (payload : RawPayload) : DataBody :=
  ⟨sortEvents dateParse
      (((payload.events.getD []).map normalizeEvent).filter (keepEvent tz dateParse s e)),
    pageInfoOf payload⟩

/-- The cache-miss tail of the handler (lines 304–407): build the upstream
parameters, honor the debug hook, fetch, normalize, re-filter, sort, store
(unless bypassed) and respond. -/
def getMiss (tz now : Int) (dateParse : String → Option Int) (key : String)
    (fetchTM : TmParams → Fetched) (raw : RawQuery) (pq : ParsedQuery)
    (s : Int) (e : Option Int) (ck : CacheKey) (c : Cache) : GetResult :=
  if raw.debug = some "1" then
    ⟨Outcome.resp 200 (Body.debugInfo s e (mkTmParams key pq s e)), c, false⟩
  else
    match fetchTM (mkTmParams key pq s e) with
    | Fetched.err st det =>
      ⟨Outcome.resp st (Body.tmFailed det (mkTmParams key pq s e)), c, true⟩
    | Fetched.ok payload =>
      ⟨Outcome.resp 200 (Body.data (buildData tz dateParse s e payload)),
        (if raw.nocache = some "1" then c
          else cacheInsert c ck ⟨now, Body.data (buildData tz dateParse s e payload)⟩),
        true⟩

/-- The stage after window resolution (lines 294–302): compute the
fingerprint, skip the lookup under the bypass flag, answer a fresh hit from
the cache, otherwise continue to the miss path. -/
def getWithWindow (tz now : Int) (dateParse : String → Option Int) (key : String)
    (fetchTM : TmParams → Fetched) (raw : RawQuery) (pq : ParsedQuery)
    (s : Int) (e : Option Int) (c : Cache) : GetResult :=
  match (if raw.nocache = some "1" then none else lookupHit c now (mkKey pq s e)) with
  | some b => ⟨Outcome.resp 200 b, c, false⟩
  | none => getMiss tz now dateParse key fetchTM raw pq s e (mkKey pq s e) c

/-- The stage after validation (lines 277–292): window normalization; a
`RangeError` thrown there escapes the handler. -/
def getWithQuery (tz now : Int) (dateParse : String → Option Int) (key : String)
    (fetchTM : TmParams → Fetched) (raw : RawQuery) (pq : ParsedQuery)
    (c : Cache) : GetResult :=
  match normalizeWindow tz now pq.fromP pq.toP with
  | none => ⟨Outcome.thrown, c, false⟩
  | some (s, e) => getWithWindow tz now dateParse key fetchTM raw pq s e c

/-- The route handler `GET` (lines 257–408): missing credential check,
validation, then the staged pipeline. -/
def GET (tz now : Int) (dateParse : String → Option Int) (apiKey : Option String)
    (fetchTM : TmParams → Fetched) (raw : RawQuery) (c : Cache) : GetResult :=
  match apiKey with
  | none => ⟨Outcome.resp 500 Body.missingKey, c, false⟩
  | some key =>
    match validateQuery raw with
    | none => ⟨Outcome.resp 400 Body.invalidQuery, c, false⟩
    | some pq => getWithQuery tz now dateParse key fetchTM raw pq c

/-- The parsed `(year, month, day)` pieces of a date string, when all three
`Number()` coercions succeed. -/
def ymdTriple (s : String) : Option (Int × Int × Int) :=
  match (splitOnChar '-' s.toList).map jsNumberInt with
  | [some y, some m, some d] => some (y, m, d)
  | _ => none

/-- A valid calendar-date string: shape `YYYY-MM-DD` with a month in `[1, 12]`
and a day in `[1, 31]`. -/
def validCalendarDate (s : String) : Bool :=
  isYMDstr s &&
    (match ymdTriple s with
      | some (_, m, d) =>
        decide (1 ≤ m) && decide (m ≤ 12) && decide (1 ≤ d) && decide (d ≤ 31)
      | none => false)

/-- `f` names a strictly later calendar date than `t` (lexicographic on the
parsed year, month, day). -/
def calendarLater (f t : String) : Bool :=
  match ymdTriple f, ymdTriple t with
  | some (yf, mf, df), some (yt, mt0, dt0) =>
    decide (yt < yf) ||
      (decide (yt = yf) &&
        (decide (mt0 < mf) || (decide (mt0 = mf) && decide (dt0 < df))))
  | _, _ => false

lemma toIsoNoMs_eq (t : Int) : toIsoNoMs t = t / 1000 * 1000 := by
  unfold toIsoNoMs
  rw [Int.fdiv_eq_ediv _ (by norm_num)]

lemma toIsoNoMs_le (t : Int) : toIsoNoMs t ≤ t := by
  rw [toIsoNoMs_eq]; omega

lemma lt_toIsoNoMs_add (t : Int) : t < toIsoNoMs t + 1000 := by
  rw [toIsoNoMs_eq]; omega

lemma toIsoNoMs_mod (t : Int) : toIsoNoMs t % 1000 = 0 := by
  rw [toIsoNoMs_eq]; omega

lemma toIsoNoMs_fixed {t : Int} (h : t % 1000 = 0) : toIsoNoMs t = t := by
  rw [toIsoNoMs_eq]; omega

lemma startIsoFromYMD_mod {tz now : Int} {o : Option String} {t : Int}
    (h : startIsoFromYMD tz now o = some t) : t % 1000 = 0 := by
  match o with
  | none =>
    simp only [startIsoFromYMD] at h
    cases h
    exact toIsoNoMs_mod now
  | some s =>
    simp only [startIsoFromYMD] at h
    by_cases hs : s = ""
    · rw [if_pos hs] at h
      cases h
      exact toIsoNoMs_mod now
    · rw [if_neg hs] at h
      match hu : ymdToLocalStart tz s with
      | none => rw [hu] at h; cases h
      | some u =>
        rw [hu] at h
        simp only [Option.map_some'] at h
        cases h
        exact toIsoNoMs_mod u

lemma endIsoFromYMD_mod {tz : Int} {o : Option String} {e : Option Int} {t : Int}
    (h : endIsoFromYMD tz o = some e) (he : e = some t) : t % 1000 = 0 := by
  match o with
  | none =>
    simp only [endIsoFromYMD] at h
    cases h
    cases he
  | some s =>
    simp only [endIsoFromYMD] at h
    by_cases hs : s = ""
    · rw [if_pos hs] at h
      cases h
      cases he
    · rw [if_neg hs] at h
      match hu : ymdToLocalEnd tz s with
      | none => rw [hu] at h; cases h
      | some u =>
        rw [hu] at h
        simp only [Option.map_some'] at h
        cases h
        cases he
        exact toIsoNoMs_mod u

lemma rawWindow_mod {tz now : Int} {fp tp : Option String} {s : Int} {e : Option Int}
    (h : rawWindow tz now fp tp = some (s, e)) :
    s % 1000 = 0 ∧ ∀ t, e = some t → t % 1000 = 0 := by
  unfold rawWindow at h
  match hs : startIsoFromYMD tz now fp with
  | none => rw [hs] at h; cases h
  | some s0 =>
    rw [hs] at h
    match hee : endIsoFromYMD tz tp with
    | none => rw [hee] at h; cases h
    | some e0 =>
      rw [hee] at h
      cases h
      exact ⟨startIsoFromYMD_mod hs, fun t ht => endIsoFromYMD_mod hee ht⟩

lemma swapWindow_le {s : Int} {e : Option Int} {s1 t : Int} {e1 : Option Int}
    (hsw : swapWindow s e = (s1, e1)) (ht : e1 = some t) : s1 ≤ t := by
  subst ht
  match e with
  | none =>
    simp only [swapWindow] at hsw
    injection hsw with h1 h2
    exact Option.noConfusion h2
  | some e0 =>
    simp only [swapWindow] at hsw
    by_cases hlt : e0 < s
    · rw [if_pos hlt] at hsw
      injection hsw with h1 h2
      injection h2 with h2
      omega
    · rw [if_neg hlt] at hsw
      injection hsw with h1 h2
      injection h2 with h2
      omega

lemma swapWindow_mod {s : Int} {e : Option Int} {s1 : Int} {e1 : Option Int}
    (hsw : swapWindow s e = (s1, e1))
    (hs : s % 1000 = 0) (he : ∀ t, e = some t → t % 1000 = 0) :
    s1 % 1000 = 0 ∧ ∀ t, e1 = some t → t % 1000 = 0 := by
  match e with
  | none =>
    simp only [swapWindow] at hsw
    injection hsw with h1 h2
    subst h1; subst h2
    exact ⟨hs, fun t ht => Option.noConfusion ht⟩
  | some e0 =>
    have he0 : e0 % 1000 = 0 := he e0 rfl
    simp only [swapWindow] at hsw
    by_cases hlt : e0 < s
    · rw [if_pos hlt] at hsw
      injection hsw with h1 h2
      subst h1; subst h2
      exact ⟨he0, by intro t ht; injection ht with ht; omega⟩
    · rw [if_neg hlt] at hsw
      injection hsw with h1 h2
      subst h1; subst h2
      exact ⟨hs, by intro t ht; injection ht with ht; omega⟩

lemma capWindow_le {s1 : Int} {e1 : Option Int} {s : Int} {e0 : Int}
    (h : capWindow s1 e1 = some (s, some e0)) (hle : ∀ t, e1 = some t → s1 ≤ t) :
    s ≤ e0 ∧ e0 - s ≤ MAX_WINDOW_MS := by
  match e1 with
  | none =>
    simp only [capWindow] at h
    injection h with h
    injection h with h1 h2
    exact Option.noConfusion h2
  | some t1 =>
    have ht1 : s1 ≤ t1 := hle t1 rfl
    simp only [capWindow] at h
    by_cases hd : MAX_WINDOW_MS < t1 - s1
    · rw [if_pos hd] at h
      by_cases hv : jsDateValid (s1 + MAX_WINDOW_MS) = true
      · rw [if_pos hv] at h
        injection h with h
        injection h with h1 h2
        injection h2 with h2
        have ha := toIsoNoMs_le (s1 + MAX_WINDOW_MS)
        have hb := lt_toIsoNoMs_add (s1 + MAX_WINDOW_MS)
        unfold MAX_WINDOW_MS at ha hb hd h2 ⊢
        omega
      · rw [if_neg hv] at h
        exact Option.noConfusion h
    · rw [if_neg hd] at h
      injection h with h
      injection h with h1 h2
      injection h2 with h2
      omega

lemma normalizeWindow_eq {tz now : Int} {fp tp : Option String} {s0 s1 : Int}
    {eR e1 : Option Int} (hr : rawWindow tz now fp tp = some (s0, eR))
    (hsw : swapWindow s0 eR = (s1, e1)) :
    normalizeWindow tz now fp tp = capWindow s1 e1 := by
  unfold normalizeWindow
  rw [hr]
  show capWindow (swapWindow s0 eR).1 (swapWindow s0 eR).2 = capWindow s1 e1
  rw [hsw]

/-- After normalization, a defined end bound is at least the start bound. -/
lemma normalizeWindow_start_le_end {tz now : Int} {fp tp : Option String}
    {s e0 : Int} (h : normalizeWindow tz now fp tp = some (s, some e0)) : s ≤ e0 := by
  match hr : rawWindow tz now fp tp with
  | none =>
    unfold normalizeWindow at h
    rw [hr] at h
    exact Option.noConfusion h
  | some (s0, eR) =>
    rcases hsw : swapWindow s0 eR with ⟨s1, e1⟩
    rw [normalizeWindow_eq hr hsw] at h
    exact (capWindow_le h (fun t ht => swapWindow_le hsw ht)).1

/-- C4: for valid `from`/`to` calendar-date strings with `from` the later
calendar date, the normalized window satisfies `start <= end`: the bounds are
swapped rather than rejected (lines 281–285).  The conclusion in fact holds
for every input that normalizes to a window with a defined end. -/
theorem c4_swap_start_le_end (tz now : Int) (f t : String) (s e0 : Int)
    (_hf : validCalendarDate f = true) (_ht : validCalendarDate t = true)
    (_hlater : calendarLater f t = true)
    (h : normalizeWindow tz now (some f) (some t) = some (s, some e0)) : s ≤ e0 :=
  normalizeWindow_start_le_end h

/-- C4 witness: `from = "2025-06-10"`, `to = "2025-06-01"` (reversed order) in
a UTC locale produces a window whose swapped bounds satisfy `start <= end`. -/
theorem c4_witness :
    normalizeWindow 0 0 (some "2025-06-10") (some "2025-06-01") =
      some (1748822399000, some 1749513600000) ∧ (1748822399000 : Int) ≤ 1749513600000 :=
  ⟨by decide,
    c4_swap_start_le_end 0 0 "2025-06-10" "2025-06-01" 1748822399000 1749513600000
      (by decide) (by decide) (by decide) (by decide)⟩

/-- C5: a normalized window with a defined end spans at most 180 days, and
when the swapped raw pair exceeds that span the end is clamped to exactly
`start + 180 days` with the start untouched (lines 286–292). -/
theorem c5_window_cap (tz now : Int) (fp tp : Option String) (s e0 : Int)
    (h : normalizeWindow tz now fp tp = some (s, some e0)) :
    e0 - s ≤ MAX_WINDOW_MS ∧
      ∀ s0 eR s1 e1, rawWindow tz now fp tp = some (s0, eR) →
        swapWindow s0 eR = (s1, some e1) →
        MAX_WINDOW_MS < e1 - s1 →
        s = s1 ∧ e0 = s1 + MAX_WINDOW_MS := by
  match hr : rawWindow tz now fp tp with
  | none =>
    unfold normalizeWindow at h
    rw [hr] at h
    exact Option.noConfusion h
  | some (s0, eR) =>
    rcases hsw : swapWindow s0 eR with ⟨s1a, e1a⟩
    have hnw := normalizeWindow_eq hr hsw
    rw [hnw] at h
    refine ⟨(capWindow_le h (fun t ht => swapWindow_le hsw ht)).2, ?_⟩
    intro s0' eR' s1 e1 hr' hsw' hex
    injection hr' with hr2
    injection hr2 with hra hrb
    subst hra; subst hrb
    rw [hsw] at hsw'
    injection hsw' with hswa hswb
    subst hswa; subst hswb
    have hmod := rawWindow_mod hr
    have hsm := swapWindow_mod hsw hmod.1 hmod.2
    simp only [capWindow] at h
    rw [if_pos hex] at h
    by_cases hv : jsDateValid (s1a + MAX_WINDOW_MS) = true
    · rw [if_pos hv] at h
      injection h with h
      injection h with h1 h2
      injection h2 with h2
      have hm : (s1a + MAX_WINDOW_MS) % 1000 = 0 := by
        have hx : s1a % 1000 = 0 := hsm.1
        unfold MAX_WINDOW_MS
        omega
      rw [toIsoNoMs_fixed hm] at h2
      exact ⟨h1.symm, h2.symm⟩
    · rw [if_neg hv] at h
      exact Option.noConfusion h

/-- C5 witness: `from = "2025-01-01"`, `to = "2025-12-31"` (a 364-day span)
in a UTC locale is clamped to exactly `start + 180` days. -/
theorem c5_witness :
    normalizeWindow 0 0 (some "2025-01-01") (some "2025-12-31") =
      some (1735689600000, some 1751241600000) ∧
      (1751241600000 : Int) - 1735689600000 ≤ MAX_WINDOW_MS ∧
      (1751241600000 : Int) = 1735689600000 + MAX_WINDOW_MS :=
  ⟨by decide,
    (c5_window_cap 0 0 (some "2025-01-01") (some "2025-12-31")
        1735689600000 1751241600000 (by decide)).1,
    ((c5_window_cap 0 0 (some "2025-01-01") (some "2025-12-31")
        1735689600000 1751241600000 (by decide)).2
      1735689600000 (some 1767225599000) 1735689600000 1767225599000
      (by decide) (by decide) (by decide)).2⟩

/-- A raw query whose `from` is a non-date string (passes the schema, which
does not validate the date format). -/
def rawFromJunk : RawQuery :=
  ⟨none, none, none, none, some "banana", none, none, none, none⟩

/-- A raw query whose `lat` is non-numeric (fails the schema's coercion). -/
def rawBadLat : RawQuery :=
  ⟨none, some "abc", none, none, none, none, none, none, none⟩

/-- C6 (code bug): the schema accepts `from`/`to` as arbitrary strings, so a
request with `from = "banana"` passes validation and then throws an uncaught
`RangeError` inside `startIsoFromYMD` (`toISOString` on an invalid date),
instead of producing the structured 400 validation failure the specification
requires; non-numeric values for the numeric fields, by contrast, do fail
validation with a 400.  Both facts hold for every clock, timezone, parser,
upstream behaviour and cache state. -/
theorem c6_from_junk_throws (tz now : Int) (dateParse : String → Option Int)
    (key : String) (fetchTM : TmParams → Fetched) (c : Cache) :
    GET tz now dateParse (some key) fetchTM rawFromJunk c =
        ⟨Outcome.thrown, c, false⟩ ∧
      GET tz now dateParse (some key) fetchTM rawBadLat c =
        ⟨Outcome.resp 400 Body.invalidQuery, c, false⟩ :=
  ⟨rfl, rfl⟩

lemma GET_eq_getWithQuery {tz now : Int} {dp : String → Option Int} {key : String}
    {fetchTM : TmParams → Fetched} {raw : RawQuery} {c : Cache} {pq : ParsedQuery}
    (hv : validateQuery raw = some pq) :
    GET tz now dp (some key) fetchTM raw c = getWithQuery tz now dp key fetchTM raw pq c := by
  unfold GET
  rw [hv]

lemma getWithQuery_eq {tz now : Int} {dp : String → Option Int} {key : String}
    {fetchTM : TmParams → Fetched} {raw : RawQuery} {pq : ParsedQuery} {c : Cache}
    {s : Int} {e : Option Int}
    (hw : normalizeWindow tz now pq.fromP pq.toP = some (s, e)) :
    getWithQuery tz now dp key fetchTM raw pq c =
      getWithWindow tz now dp key fetchTM raw pq s e c := by
  unfold getWithQuery
  rw [hw]

lemma getWithQuery_thrown {tz now : Int} {dp : String → Option Int} {key : String}
    {fetchTM : TmParams → Fetched} {raw : RawQuery} {pq : ParsedQuery} {c : Cache}
    (hw : normalizeWindow tz now pq.fromP pq.toP = none) :
    getWithQuery tz now dp key fetchTM raw pq c = ⟨Outcome.thrown, c, false⟩ := by
  unfold getWithQuery
  rw [hw]

lemma getWithWindow_hit {tz now : Int} {dp : String → Option Int} {key : String}
    {fetchTM : TmParams → Fetched} {raw : RawQuery} {pq : ParsedQuery} {c : Cache}
    {s : Int} {e : Option Int} {b : Body}
    (hl : (if raw.nocache = some "1" then none else lookupHit c now (mkKey pq s e)) = some b) :
    getWithWindow tz now dp key fetchTM raw pq s e c = ⟨Outcome.resp 200 b, c, false⟩ := by
  unfold getWithWindow
  rw [hl]

lemma getWithWindow_miss {tz now : Int} {dp : String → Option Int} {key : String}
    {fetchTM : TmParams → Fetched} {raw : RawQuery} {pq : ParsedQuery} {c : Cache}
    {s : Int} {e : Option Int}
    (hl : (if raw.nocache = some "1" then none else lookupHit c now (mkKey pq s e)) = none) :
    getWithWindow tz now dp key fetchTM raw pq s e c =
      getMiss tz now dp key fetchTM raw pq s e (mkKey pq s e) c := by
  unfold getWithWindow
  rw [hl]

lemma getMiss_debug {tz now : Int} {dp : String → Option Int} {key : String}
    {fetchTM : TmParams → Fetched} {raw : RawQuery} {pq : ParsedQuery}
    {s : Int} {e : Option Int} {ck : CacheKey} {c : Cache}
    (hd : raw.debug = some "1") :
    getMiss tz now dp key fetchTM raw pq s e ck c =
      ⟨Outcome.resp 200 (Body.debugInfo s e (mkTmParams key pq s e)), c, false⟩ := by
  unfold getMiss
  rw [if_pos hd]

lemma getMiss_err {tz now : Int} {dp : String → Option Int} {key : String}
    {fetchTM : TmParams → Fetched} {raw : RawQuery} {pq : ParsedQuery}
    {s : Int} {e : Option Int} {ck : CacheKey} {c : Cache} {st : Int} {det : String}
    (hd : ¬ raw.debug = some "1")
    (hf : fetchTM (mkTmParams key pq s e) = Fetched.err st det) :
    getMiss tz now dp key fetchTM raw pq s e ck c =
      ⟨Outcome.resp st (Body.tmFailed det (mkTmParams key pq s e)), c, true⟩ := by
  unfold getMiss
  rw [if_neg hd, hf]

lemma GET_noKey {tz now : Int} {dp : String → Option Int}
    {fetchTM : TmParams → Fetched} {raw : RawQuery} {c : Cache} :
    GET tz now dp none fetchTM raw c = ⟨Outcome.resp 500 Body.missingKey, c, false⟩ :=
  rfl

lemma GET_invalid {tz now : Int} {dp : String → Option Int} {key : String}
    {fetchTM : TmParams → Fetched} {raw : RawQuery} {c : Cache}
    (hv : validateQuery raw = none) :
    GET tz now dp (some key) fetchTM raw c = ⟨Outcome.resp 400 Body.invalidQuery, c, false⟩ := by
  unfold GET
  rw [hv]

lemma getMiss_ok {tz now : Int} {dp : String → Option Int} {key : String}
    {fetchTM : TmParams → Fetched} {raw : RawQuery} {pq : ParsedQuery}
    {s : Int} {e : Option Int} {ck : CacheKey} {c : Cache} {payload : RawPayload}
    (hd : ¬ raw.debug = some "1")
    (hf : fetchTM (mkTmParams key pq s e) = Fetched.ok payload) :
    getMiss tz now dp key fetchTM raw pq s e ck c =
      ⟨Outcome.resp 200 (Body.data (buildData tz dp s e payload)),
        (if raw.nocache = some "1" then c
          else cacheInsert c ck ⟨now, Body.data (buildData tz dp s e payload)⟩),
        true⟩ := by
  unfold getMiss
  rw [if_neg hd, hf]

/-- C7: a request carrying the cache-bypass flag never changes the cache (the
store is skipped on every path), and — whenever the request reaches the fetch
stage, i.e. the key is configured, validation and window normalization
succeed, and the debug hook is not taken — the upstream service is called,
regardless of the cache contents (in particular even when a fresh entry under
the identical fingerprint exists: the lookup is skipped). -/
theorem c7_nocache_bypass (tz now : Int) (dp : String → Option Int)
    (apiKey : Option String) (fetchTM : TmParams → Fetched) (raw : RawQuery) (c : Cache)
    (hnc : raw.nocache = some "1") :
    (GET tz now dp apiKey fetchTM raw c).cache = c ∧
      (∀ key pq s e, apiKey = some key → validateQuery raw = some pq →
        normalizeWindow tz now pq.fromP pq.toP = some (s, e) →
        ¬ raw.debug = some "1" →
        (GET tz now dp apiKey fetchTM raw c).upstream = true) := by
  constructor
  · match apiKey with
    | none => rw [GET_noKey]
    | some key =>
      match hv : validateQuery raw with
      | none => rw [GET_invalid hv]
      | some pq =>
        rw [GET_eq_getWithQuery hv]
        match hw : normalizeWindow tz now pq.fromP pq.toP with
        | none => rw [getWithQuery_thrown hw]
        | some (s, e) =>
          rw [getWithQuery_eq hw, getWithWindow_miss (by rw [if_pos hnc])]
          by_cases hd : raw.debug = some "1"
          · rw [getMiss_debug hd]
          · match hf : fetchTM (mkTmParams key pq s e) with
            | Fetched.err st det => rw [getMiss_err hd hf]
            | Fetched.ok payload =>
              rw [getMiss_ok hd hf]
              exact if_pos hnc
  · intro key pq s e hk hv hw hd
    subst hk
    rw [GET_eq_getWithQuery hv, getWithQuery_eq hw,
      getWithWindow_miss (by rw [if_pos hnc])]
    match hf : fetchTM (mkTmParams key pq s e) with
    | Fetched.err st det => rw [getMiss_err hd hf]
    | Fetched.ok payload => rw [getMiss_ok hd hf]

/-- C7 witness: a bypass request against a cache that holds a fresh entry
under the very fingerprint the request computes still calls upstream, and the
cache is unchanged. -/
theorem c7_witness :
    (GET 0 0 (fun _ => none) (some "key") (fun _ => Fetched.ok ⟨some [], none⟩)
        ⟨none, none, none, none, some "2025-06-01", some "2025-06-10", none, some "1", none⟩
        (cacheInsert emptyCache
          ⟨none, none, none, 25, 1748736000000, some 1749599999000, 0⟩
          ⟨0, Body.data ⟨[], ⟨0, 0, 0⟩⟩⟩)).cache =
      cacheInsert emptyCache
        ⟨none, none, none, 25, 1748736000000, some 1749599999000, 0⟩
        ⟨0, Body.data ⟨[], ⟨0, 0, 0⟩⟩⟩ ∧
    (GET 0 0 (fun _ => none) (some "key") (fun _ => Fetched.ok ⟨some [], none⟩)
        ⟨none, none, none, none, some "2025-06-01", some "2025-06-10", none, some "1", none⟩
        (cacheInsert emptyCache
          ⟨none, none, none, 25, 1748736000000, some 1749599999000, 0⟩
          ⟨0, Body.data ⟨[], ⟨0, 0, 0⟩⟩⟩)).upstream = true :=
  ⟨(c7_nocache_bypass 0 0 (fun _ => none) (some "key") (fun _ => Fetched.ok ⟨some [], none⟩)
      ⟨none, none, none, none, some "2025-06-01", some "2025-06-10", none, some "1", none⟩
      (cacheInsert emptyCache
        ⟨none, none, none, 25, 1748736000000, some 1749599999000, 0⟩
        ⟨0, Body.data ⟨[], ⟨0, 0, 0⟩⟩⟩) rfl).1,
    (c7_nocache_bypass 0 0 (fun _ => none) (some "key") (fun _ => Fetched.ok ⟨some [], none⟩)
      ⟨none, none, none, none, some "2025-06-01", some "2025-06-10", none, some "1", none⟩
      (cacheInsert emptyCache
        ⟨none, none, none, 25, 1748736000000, some 1749599999000, 0⟩
        ⟨0, Body.data ⟨[], ⟨0, 0, 0⟩⟩⟩) rfl).2
      "key" ⟨none, none, none, 25, some "2025-06-01", some "2025-06-10", 0⟩
      1748736000000 (some 1749599999000) rfl (by decide) (by decide) (by decide)⟩

/-- C8: a cache entry is stored only on a miss that completes a successful
upstream round trip.  Requests ending in a validation failure, a
missing-credential error or an upstream non-2xx response leave the cache
untouched, and conversely any cache change implies that upstream was called
and the response was the freshly built success payload. -/
theorem c8_store_only_on_success (tz now : Int) (dp : String → Option Int)
    (apiKey : Option String) (fetchTM : TmParams → Fetched) (raw : RawQuery) (c : Cache)
    (r : GetResult) (hr : GET tz now dp apiKey fetchTM raw c = r) :
    ((r.out = Outcome.resp 400 Body.invalidQuery ∨
        r.out = Outcome.resp 500 Body.missingKey ∨
        ∃ st det u, r.out = Outcome.resp st (Body.tmFailed det u)) → r.cache = c) ∧
      (r.cache ≠ c →
        r.upstream = true ∧ ∃ d, r.out = Outcome.resp 200 (Body.data d)) := by
  subst hr
  match apiKey with
  | none =>
    rw [GET_noKey]
    exact ⟨fun _ => rfl, fun h => absurd rfl h⟩
  | some key =>
    match hv : validateQuery raw with
    | none =>
      rw [GET_invalid hv]
      exact ⟨fun _ => rfl, fun h => absurd rfl h⟩
    | some pq =>
      rw [GET_eq_getWithQuery hv]
      match hw : normalizeWindow tz now pq.fromP pq.toP with
      | none =>
        rw [getWithQuery_thrown hw]
        exact ⟨fun _ => rfl, fun h => absurd rfl h⟩
      | some (s, e) =>
        rw [getWithQuery_eq hw]
        match hl : (if raw.nocache = some "1" then none
            else lookupHit c now (mkKey pq s e)) with
        | some b =>
          rw [getWithWindow_hit hl]
          exact ⟨fun _ => rfl, fun h => absurd rfl h⟩
        | none =>
          rw [getWithWindow_miss hl]
          by_cases hd : raw.debug = some "1"
          · rw [getMiss_debug hd]
            exact ⟨fun _ => rfl, fun h => absurd rfl h⟩
          · match hf : fetchTM (mkTmParams key pq s e) with
            | Fetched.err st det =>
              rw [getMiss_err hd hf]
              exact ⟨fun _ => rfl, fun h => absurd rfl h⟩
            | Fetched.ok payload =>
              rw [getMiss_ok hd hf]
              by_cases hnc : raw.nocache = some "1"
              · rw [if_pos hnc]
                exact ⟨fun _ => rfl, fun h => absurd rfl h⟩
              · rw [if_neg hnc]
                constructor
                · intro h
                  rcases h with h | h | ⟨st, det, u, h⟩ <;> simp at h
                · exact fun _ => ⟨rfl, buildData tz dp s e payload, rfl⟩

/-- C8 witness: a request that ends in a validation failure leaves the cache
exactly as it was. -/
theorem c8_witness :
    (GET 0 0 (fun _ => none) (some "key") (fun _ => Fetched.err 503 "down")
      rawBadLat emptyCache).cache = emptyCache :=
  (c8_store_only_on_success 0 0 (fun _ => none) (some "key")
    (fun _ => Fetched.err 503 "down") rawBadLat emptyCache
    (GET 0 0 (fun _ => none) (some "key") (fun _ => Fetched.err 503 "down")
      rawBadLat emptyCache) rfl).1 (Or.inl (by decide))

/-- Every event of `l` has a parsable `start` and an effective instant inside
the window `[s, e-or-+infinity]`. -/
def ResultsOk (tz : Int) (dp : String → Option Int) (s : Int) (e : Option Int)
    (l : List NormalizedEvent) : Prop :=
  ∀ ev ∈ l, (dp ev.start).isSome = true ∧
    ∃ m, effectiveInstant tz dp ev.start = some m ∧ s ≤ m ∧ ∀ e0, e = some e0 → m ≤ e0

/-- Cache well-formedness for the window property: every stored entry is a
success payload whose results satisfy the window of its own fingerprint.  It
holds for the empty cache a process starts with, and the pipeline preserves
it. -/
def CacheInWindow (tz : Int) (dp : String → Option Int) (c : Cache) : Prop :=
  ∀ ck ent, c ck = some ent →
    ∃ l pi, ent.data = Body.data ⟨l, pi⟩ ∧ ResultsOk tz dp ck.startISO ck.endISO l

lemma effectiveInstant_parse {tz : Int} {dp : String → Option Int} {s0 : String}
    {m : Int} (h : effectiveInstant tz dp s0 = some m) : (dp s0).isSome = true := by
  unfold effectiveInstant at h
  split at h
  · exact Option.noConfusion h
  · next v hd => rw [hd]; rfl

lemma keepEvent_spec {tz : Int} {dp : String → Option Int} {s : Int}
    {e : Option Int} {ev : NormalizedEvent} (h : keepEvent tz dp s e ev = true) :
    ∃ m, effectiveInstant tz dp ev.start = some m ∧ s ≤ m ∧
      ∀ e0, e = some e0 → m ≤ e0 := by
  unfold keepEvent at h
  split at h
  · exact Bool.noConfusion h
  · next m hm =>
    rw [Bool.and_eq_true] at h
    refine ⟨m, hm, of_decide_eq_true h.1, ?_⟩
    intro e0 he0
    subst he0
    exact of_decide_eq_true h.2

lemma buildData_resultsOk (tz : Int) (dp : String → Option Int) (s : Int)
    (e : Option Int) (payload : RawPayload) :
    ResultsOk tz dp s e (buildData tz dp s e payload).results := by
  intro ev hev
  have hev' : ev ∈ ((payload.events.getD []).map normalizeEvent).filter
      (keepEvent tz dp s e) :=
    (List.mem_insertionSort (sortKeyLe dp)).mp hev
  have hk := (List.mem_filter.mp hev').2
  obtain ⟨m, hm, h1, h2⟩ := keepEvent_spec hk
  exact ⟨effectiveInstant_parse hm, m, hm, h1, h2⟩

lemma lookupHit_some {c : Cache} {now : Int} {ck : CacheKey} {b : Body}
    (h : lookupHit c now ck = some b) :
    ∃ ent, c ck = some ent ∧ now - ent.ts < TTL_MS ∧ ent.data = b := by
  unfold lookupHit at h
  split at h
  · next ent hc =>
    split at h
    · next ht =>
      injection h with h
      exact ⟨ent, hc, ht, h⟩
    · exact Option.noConfusion h
  · exact Option.noConfusion h

lemma cacheInWindow_insert {tz : Int} {dp : String → Option Int} {c : Cache}
    {pq : ParsedQuery} {s : Int} {e : Option Int} {ent : CacheEntry}
    (hwf : CacheInWindow tz dp c)
    (hd : ∃ l pi, ent.data = Body.data ⟨l, pi⟩ ∧ ResultsOk tz dp s e l) :
    CacheInWindow tz dp (cacheInsert c (mkKey pq s e) ent) := by
  intro ck' ent' h'
  unfold cacheInsert at h'
  by_cases hk : ck' = mkKey pq s e
  · rw [if_pos hk] at h'
    injection h' with h'
    subst h'
    subst hk
    exact hd
  · rw [if_neg hk] at h'
    exact hwf ck' ent' h'

/-- C1: under a well-formed cache, every success response of the pipeline
carries only events whose `start` parses and whose effective instant (local
end-of-day for date-only starts, the parsed instant otherwise) lies inside
the request's resolved window; unparsable starts never appear.  The
well-formedness of the cache is itself preserved. -/
theorem c1_results_within_window (tz now : Int) (dp : String → Option Int)
    (apiKey : Option String) (fetchTM : TmParams → Fetched) (raw : RawQuery)
    (c : Cache) (pq : ParsedQuery) (s : Int) (e : Option Int) (st : Int)
    (l : List NormalizedEvent) (pi : PageInfo)
    (hwf : CacheInWindow tz dp c)
    (hv : validateQuery raw = some pq)
    (hw : normalizeWindow tz now pq.fromP pq.toP = some (s, e))
    (ho : (GET tz now dp apiKey fetchTM raw c).out = Outcome.resp st (Body.data ⟨l, pi⟩)) :
    ResultsOk tz dp s e l ∧
      CacheInWindow tz dp (GET tz now dp apiKey fetchTM raw c).cache := by
  match apiKey with
  | none => rw [GET_noKey] at ho; simp at ho
  | some key =>
    rw [GET_eq_getWithQuery hv, getWithQuery_eq hw] at ho ⊢
    match hl : (if raw.nocache = some "1" then none
        else lookupHit c now (mkKey pq s e)) with
    | some b =>
      rw [getWithWindow_hit hl] at ho ⊢
      injection ho with ho1 ho2
      subst ho2
      by_cases hnc : raw.nocache = some "1"
      · rw [if_pos hnc] at hl
        exact Option.noConfusion hl
      · rw [if_neg hnc] at hl
        obtain ⟨ent, hck, _hts, hdata⟩ := lookupHit_some hl
        obtain ⟨l0, pi0, hshape, hok⟩ := hwf (mkKey pq s e) ent hck
        rw [hdata] at hshape
        injection hshape with hshape
        injection hshape with hsl hspi
        subst hsl
        exact ⟨hok, hwf⟩
    | none =>
      rw [getWithWindow_miss hl] at ho ⊢
      by_cases hd : raw.debug = some "1"
      · rw [getMiss_debug hd] at ho
        simp at ho
      · match hf : fetchTM (mkTmParams key pq s e) with
        | Fetched.err st2 det =>
          rw [getMiss_err hd hf] at ho
          simp at ho
        | Fetched.ok payload =>
          rw [getMiss_ok hd hf] at ho ⊢
          injection ho with ho1 ho2
          injection ho2 with ho2
          have hres : (buildData tz dp s e payload).results = l := by rw [ho2]
          constructor
          · rw [← hres]
            exact buildData_resultsOk tz dp s e payload
          · show CacheInWindow tz dp (if raw.nocache = some "1" then c
              else cacheInsert c (mkKey pq s e) ⟨now, Body.data (buildData tz dp s e payload)⟩)
            by_cases hnc : raw.nocache = some "1"
            · rw [if_pos hnc]
              exact hwf
            · rw [if_neg hnc]
              exact cacheInWindow_insert hwf
                ⟨(buildData tz dp s e payload).results, pageInfoOf payload, rfl,
                  buildData_resultsOk tz dp s e payload⟩

/-- Fixture parser agreeing with JS `Date.parse` on the two start strings the
example events use: a bare `YYYY-MM-DD` parses at UTC midnight of that date
and a `Z`-suffixed ISO string at its UTC instant; every other string is NaN. -/
def dpFix : String → Option Int := fun s =>
  if s = "2025-07-04" then some 1751587200000
  else if s = "2025-07-04T12:00:00Z" then some 1751630400000
  else none

/-- Fixture event with a precise `dateTime` of 2025-07-04T12:00:00Z. -/
def evIso : RawEvent :=
  ⟨"e-iso", "Iso Event", none, some ⟨some ⟨some "2025-07-04T12:00:00Z", none⟩⟩,
    none, none, none, none⟩

/-- Fixture event with only a `localDate` of 2025-07-04. -/
def evDateOnly : RawEvent :=
  ⟨"e-date", "Date Event", none, some ⟨some ⟨none, some "2025-07-04"⟩⟩,
    none, none, none, none⟩

/-- Fixture upstream returning the two events, precise-instant one first. -/
def fetchBoth : TmParams → Fetched := fun _ => Fetched.ok ⟨some [evIso, evDateOnly], none⟩

/-- Fixture request for the window 2025-07-01 .. 2025-07-05. -/
def rawC2 : RawQuery :=
  ⟨none, none, none, none, some "2025-07-01", some "2025-07-05", none, none, none⟩

/-- C1 witness: a concrete request against the empty cache returns exactly the
two fixture events, both inside the resolved window, and the cache stays
well-formed. -/
theorem c1_witness :
    ResultsOk 0 dpFix 1751328000000 (some 1751759999000)
        [normalizeEvent evDateOnly, normalizeEvent evIso] ∧
      CacheInWindow 0 dpFix (GET 0 0 dpFix (some "key") fetchBoth rawC2 emptyCache).cache :=
  c1_results_within_window 0 0 dpFix (some "key") fetchBoth rawC2 emptyCache
    ⟨none, none, none, 25, some "2025-07-01", some "2025-07-05", 0⟩
    1751328000000 (some 1751759999000) 200
    [normalizeEvent evDateOnly, normalizeEvent evIso] ⟨0, 0, 0⟩
    (fun _ck _ent h => Option.noConfusion h)
    (by decide) (by decide) (by decide)

/-- Adjacent results ordered by their `Date.parse` value (the comparator the
route's sort actually uses). -/
def SortedByParse (dp : String → Option Int) (l : List NormalizedEvent) : Prop :=
  List.Chain' (sortKeyLe dp) l

/-- Cache well-formedness for the sort property: every stored success payload
has its results ordered by parsed instant. -/
def CacheSorted (dp : String → Option Int) (c : Cache) : Prop :=
  ∀ ck ent, c ck = some ent → ∀ l pi, ent.data = Body.data ⟨l, pi⟩ → SortedByParse dp l

lemma sortEvents_sorted (dp : String → Option Int) (l : List NormalizedEvent) :
    SortedByParse dp (sortEvents dp l) := by
  haveI : IsTotal NormalizedEvent (sortKeyLe dp) := ⟨fun _ _ => Int.le_total _ _⟩
  haveI : IsTrans NormalizedEvent (sortKeyLe dp) := ⟨fun _ _ _ hab hbc => le_trans hab hbc⟩
  exact List.Pairwise.chain' (List.sorted_insertionSort (sortKeyLe dp) l)

lemma cacheSorted_insert {dp : String → Option Int} {c : Cache} {ck : CacheKey}
    {ent : CacheEntry} (hwf : CacheSorted dp c)
    (hd : ∀ l pi, ent.data = Body.data ⟨l, pi⟩ → SortedByParse dp l) :
    CacheSorted dp (cacheInsert c ck ent) := by
  intro ck' ent' h' l pi hdata
  unfold cacheInsert at h'
  by_cases hk : ck' = ck
  · rw [if_pos hk] at h'
    injection h' with h'
    subst h'
    exact hd l pi hdata
  · rw [if_neg hk] at h'
    exact hwf ck' ent' h' l pi hdata

/-- C2 (amended): under a sort-well-formed cache, every success response of
the pipeline is ordered ascending by the directly parsed instant
`Date.parse(start)` — the comparator of line 396 — not by the effective
instant the filter uses; well-formedness is preserved. -/
theorem c2_sorted_by_parse (tz now : Int) (dp : String → Option Int)
    (apiKey : Option String) (fetchTM : TmParams → Fetched) (raw : RawQuery)
    (c : Cache) (st : Int) (l : List NormalizedEvent) (pi : PageInfo)
    (hwf : CacheSorted dp c)
    (ho : (GET tz now dp apiKey fetchTM raw c).out = Outcome.resp st (Body.data ⟨l, pi⟩)) :
    SortedByParse dp l ∧ CacheSorted dp (GET tz now dp apiKey fetchTM raw c).cache := by
  match apiKey with
  | none => rw [GET_noKey] at ho; simp at ho
  | some key =>
    match hv : validateQuery raw with
    | none => rw [GET_invalid hv] at ho; simp at ho
    | some pq =>
      rw [GET_eq_getWithQuery hv] at ho ⊢
      match hw : normalizeWindow tz now pq.fromP pq.toP with
      | none => rw [getWithQuery_thrown hw] at ho; simp at ho
      | some (s, e) =>
        rw [getWithQuery_eq hw] at ho ⊢
        match hl : (if raw.nocache = some "1" then none
            else lookupHit c now (mkKey pq s e)) with
        | some b =>
          rw [getWithWindow_hit hl] at ho ⊢
          injection ho with ho1 ho2
          subst ho2
          by_cases hnc : raw.nocache = some "1"
          · rw [if_pos hnc] at hl
            exact Option.noConfusion hl
          · rw [if_neg hnc] at hl
            obtain ⟨ent, hck, _hts, hdata⟩ := lookupHit_some hl
            exact ⟨hwf (mkKey pq s e) ent hck l pi hdata, hwf⟩
        | none =>
          rw [getWithWindow_miss hl] at ho ⊢
          by_cases hd : raw.debug = some "1"
          · rw [getMiss_debug hd] at ho
            simp at ho
          · match hf : fetchTM (mkTmParams key pq s e) with
            | Fetched.err st2 det =>
              rw [getMiss_err hd hf] at ho
              simp at ho
            | Fetched.ok payload =>
              rw [getMiss_ok hd hf] at ho ⊢
              injection ho with ho1 ho2
              injection ho2 with ho2
              have hres : (buildData tz dp s e payload).results = l := by rw [ho2]
              constructor
              · rw [← hres]
                exact sortEvents_sorted dp _
              · show CacheSorted dp (if raw.nocache = some "1" then c
                  else cacheInsert c (mkKey pq s e)
                    ⟨now, Body.data (buildData tz dp s e payload)⟩)
                by_cases hnc : raw.nocache = some "1"
                · rw [if_pos hnc]
                  exact hwf
                · rw [if_neg hnc]
                  refine cacheSorted_insert hwf ?_
                  intro l0 pi0 hdata
                  injection hdata with hdata
                  have : (buildData tz dp s e payload).results = l0 := by rw [hdata]
                  rw [← this]
                  exact sortEvents_sorted dp _

/-- C2 counterexample: the pipeline returns the date-only event (effective
instant 2025-07-04T23:59:59.999, local end of day) *before* the precise event
at 2025-07-04T12:00:00 — the returned adjacent pair is strictly decreasing in
effective instant, because the sort comparator uses the raw `Date.parse`
value (UTC midnight for the date-only start), refuting the claim that results
are sorted by effective instant. -/
theorem c2_counterexample :
    (GET 0 0 dpFix (some "key") fetchBoth rawC2 emptyCache).out =
        Outcome.resp 200
          (Body.data ⟨[normalizeEvent evDateOnly, normalizeEvent evIso], ⟨0, 0, 0⟩⟩) ∧
      effectiveInstant 0 dpFix (normalizeEvent evDateOnly).start = some 1751673599999 ∧
      effectiveInstant 0 dpFix (normalizeEvent evIso).start = some 1751630400000 ∧
      (1751630400000 : Int) < 1751673599999 := by
  decide

/-- C2 witness (for the amended claim): the concrete response above is indeed
ordered by parsed instant, and the resulting cache is sort-well-formed. -/
theorem c2_witness :
    SortedByParse dpFix [normalizeEvent evDateOnly, normalizeEvent evIso] ∧
      CacheSorted dpFix (GET 0 0 dpFix (some "key") fetchBoth rawC2 emptyCache).cache :=
  c2_sorted_by_parse 0 0 dpFix (some "key") fetchBoth rawC2 emptyCache 200
    [normalizeEvent evDateOnly, normalizeEvent evIso] ⟨0, 0, 0⟩
    (fun _ck _ent h => Option.noConfusion h) (by decide)

lemma normalizeWindow_now_indep {tz n1 n2 : Int} {f : String} {tp : Option String}
    (hf : ¬ f = "") :
    normalizeWindow tz n1 (some f) tp = normalizeWindow tz n2 (some f) tp := by
  unfold normalizeWindow rawWindow startIsoFromYMD
  simp only [if_neg hf]

/-- Fixture request with every parameter omitted (in particular no `from`). -/
def rawEmpty : RawQuery := ⟨none, none, none, none, none, none, none, none, none⟩

/-- Fixture upstream returning an empty event list. -/
def fetchEmpty : TmParams → Fetched := fun _ => Fetched.ok ⟨some [], none⟩

/-- C3 counterexample: two invocations with identical parameters that omit
`from`, one second apart (well inside the five-minute TTL), both call
upstream — the second is *not* a cache hit, because the resolved `startISO`
defaults to the truncated clock reading and therefore enters the fingerprint,
refuting the idempotence claim for parameter combinations omitting `from`. -/
theorem c3_counterexample :
    (GET 0 0 (fun _ => none) (some "key") fetchEmpty rawEmpty emptyCache).upstream = true ∧
      (GET 0 1000 (fun _ => none) (some "key") fetchEmpty rawEmpty
        (GET 0 0 (fun _ => none) (some "key") fetchEmpty rawEmpty emptyCache).cache).upstream =
        true ∧
      (1000 : Int) - 0 < TTL_MS := by
  decide

/-- C3 (amended): with `from` present (and nonempty), no bypass or debug
flag, a configured key and a first call that misses the cache and completes a
successful upstream round trip, a second call with the identical parameters
whose clock reading is within the TTL of the first is answered from the
cache: byte-identical response body, no upstream call, cache unchanged. -/
theorem c3_cached_idempotence (tz now1 now2 : Int) (dp : String → Option Int)
    (key : String) (fetchTM : TmParams → Fetched) (raw : RawQuery) (c : Cache)
    (pq : ParsedQuery) (f : String) (s : Int) (e : Option Int) (payload : RawPayload)
    (hv : validateQuery raw = some pq)
    (hfrom : pq.fromP = some f) (hne : ¬ f = "")
    (hnc : ¬ raw.nocache = some "1") (hd : ¬ raw.debug = some "1")
    (hw : normalizeWindow tz now1 pq.fromP pq.toP = some (s, e))
    (hl : lookupHit c now1 (mkKey pq s e) = none)
    (hf : fetchTM (mkTmParams key pq s e) = Fetched.ok payload)
    (httl : now2 - now1 < TTL_MS) :
    (GET tz now1 dp (some key) fetchTM raw c).upstream = true ∧
      (GET tz now2 dp (some key) fetchTM raw
          (GET tz now1 dp (some key) fetchTM raw c).cache).out =
        (GET tz now1 dp (some key) fetchTM raw c).out ∧
      (GET tz now2 dp (some key) fetchTM raw
          (GET tz now1 dp (some key) fetchTM raw c).cache).upstream = false ∧
      (GET tz now2 dp (some key) fetchTM raw
          (GET tz now1 dp (some key) fetchTM raw c).cache).cache =
        (GET tz now1 dp (some key) fetchTM raw c).cache := by
  have h1 : GET tz now1 dp (some key) fetchTM raw c =
      ⟨Outcome.resp 200 (Body.data (buildData tz dp s e payload)),
        cacheInsert c (mkKey pq s e)
          ⟨now1, Body.data (buildData tz dp s e payload)⟩,
        true⟩ := by
    rw [GET_eq_getWithQuery hv, getWithQuery_eq hw,
      getWithWindow_miss (by rw [if_neg hnc]; exact hl), getMiss_ok hd hf, if_neg hnc]
  have hw2 : normalizeWindow tz now2 pq.fromP pq.toP = some (s, e) := by
    rw [hfrom] at hw ⊢
    exact Eq.trans (normalizeWindow_now_indep hne) hw
  have hl2 : lookupHit
      (cacheInsert c (mkKey pq s e) ⟨now1, Body.data (buildData tz dp s e payload)⟩)
      now2 (mkKey pq s e) = some (Body.data (buildData tz dp s e payload)) := by
    unfold lookupHit cacheInsert
    show (match (if mkKey pq s e = mkKey pq s e then
        some (⟨now1, Body.data (buildData tz dp s e payload)⟩ : CacheEntry)
        else c (mkKey pq s e)) with
      | some ent => if now2 - ent.ts < TTL_MS then some ent.data else none
      | none => none) = some (Body.data (buildData tz dp s e payload))
    rw [if_pos rfl]
    show (if now2 - now1 < TTL_MS then
        some (Body.data (buildData tz dp s e payload)) else none) = _
    rw [if_pos httl]
  have h2 : GET tz now2 dp (some key) fetchTM raw
      (cacheInsert c (mkKey pq s e) ⟨now1, Body.data (buildData tz dp s e payload)⟩) =
      ⟨Outcome.resp 200 (Body.data (buildData tz dp s e payload)),
        cacheInsert c (mkKey pq s e)
          ⟨now1, Body.data (buildData tz dp s e payload)⟩,
        false⟩ := by
    rw [GET_eq_getWithQuery hv, getWithQuery_eq hw2,
      getWithWindow_hit (by rw [if_neg hnc]; exact hl2)]
  rw [h1, h2]
  exact ⟨rfl, rfl, rfl, rfl⟩

/-- C3 witness (for the amended claim): a concrete pair of calls with
`from = "2025-07-01"` one second apart — the first misses and stores, the
second hits: identical body, no upstream call, cache unchanged. -/
theorem c3_witness :
    (GET 0 0 dpFix (some "key") fetchBoth rawC2 emptyCache).upstream = true ∧
      (GET 0 1000 dpFix (some "key") fetchBoth rawC2
          (GET 0 0 dpFix (some "key") fetchBoth rawC2 emptyCache).cache).out =
        (GET 0 0 dpFix (some "key") fetchBoth rawC2 emptyCache).out ∧
      (GET 0 1000 dpFix (some "key") fetchBoth rawC2
          (GET 0 0 dpFix (some "key") fetchBoth rawC2 emptyCache).cache).upstream = false ∧
      (GET 0 1000 dpFix (some "key") fetchBoth rawC2
          (GET 0 0 dpFix (some "key") fetchBoth rawC2 emptyCache).cache).cache =
        (GET 0 0 dpFix (some "key") fetchBoth rawC2 emptyCache).cache :=
  c3_cached_idempotence 0 0 1000 dpFix "key" fetchBoth rawC2 emptyCache
    ⟨none, none, none, 25, some "2025-07-01", some "2025-07-05", 0⟩
    "2025-07-01" 1751328000000 (some 1751759999000) ⟨some [evIso, evDateOnly], none⟩
    (by decide) rfl (by decide) (by decide) (by decide) (by decide) (by decide)
    (by decide) (by decide)

lemma truthyS_true {o : Option String} (h : truthyS o = true) :
    ∃ a, o = some a ∧ ¬ a = "" := by
  match o with
  | none => exact Bool.noConfusion h
  | some s => exact ⟨s, rfl, of_decide_eq_true h⟩

lemma coordsOf_none : coordsOf none = none := rfl

lemma coordsOf_noloc (v : RawVenue) (h : v.location = none) :
    coordsOf (some v) = none := by
  simp only [coordsOf]
  rw [h]

lemma coordsOf_loc (v : RawVenue) (loc : RawLocation) (h : v.location = some loc) :
    coordsOf (some v) =
      (if truthyS loc.latitude && truthyS loc.longitude then
        some (jsNumberQ (loc.latitude.getD ""), jsNumberQ (loc.longitude.getD ""))
      else none) := by
  simp only [coordsOf]
  rw [h]

/-- C9 (amended): the normalized coordinates are populated iff both
coordinate fields of the first venue's location are present and *truthy*
(non-empty) — the code tests JS truthiness, not numeric parse success — and a
populated pair carries the raw `Number()` coercions of the two strings, which
are NaN (`none`) whenever a value does not parse. -/
theorem c9_coords_truthiness (ev : RawEvent) :
    (¬ (normalizeEvent ev).venue.coords = none ↔
      ∃ v loc a b, firstVenue ev = some v ∧ v.location = some loc ∧
        loc.latitude = some a ∧ loc.longitude = some b ∧ ¬ a = "" ∧ ¬ b = "") ∧
    (∀ la lo, (normalizeEvent ev).venue.coords = some (la, lo) →
      ∃ v loc, firstVenue ev = some v ∧ v.location = some loc ∧
        la = jsNumberQ (loc.latitude.getD "") ∧ lo = jsNumberQ (loc.longitude.getD "")) := by
  have hc : (normalizeEvent ev).venue.coords = coordsOf (firstVenue ev) := rfl
  rw [hc]
  match hfv : firstVenue ev with
  | none =>
    refine ⟨⟨fun h => absurd coordsOf_none h, ?_⟩, ?_⟩
    · rintro ⟨v, loc, a, b, hv, -⟩
      exact Option.noConfusion hv
    · intro la lo h
      rw [coordsOf_none] at h
      exact Option.noConfusion h
  | some v =>
    match hloc : v.location with
    | none =>
      rw [coordsOf_noloc v hloc]
      refine ⟨⟨fun h => absurd rfl h, ?_⟩, ?_⟩
      · rintro ⟨v', loc, a, b, hv', hl', -⟩
        injection hv' with hv'
        subst hv'
        rw [hloc] at hl'
        exact Option.noConfusion hl'
      · intro la lo h
        exact Option.noConfusion h
    | some loc =>
      rw [coordsOf_loc v loc hloc]
      by_cases ht : (truthyS loc.latitude && truthyS loc.longitude) = true
      · rw [if_pos ht]
        rw [Bool.and_eq_true] at ht
        obtain ⟨a, ha, hane⟩ := truthyS_true ht.1
        obtain ⟨b, hb, hbne⟩ := truthyS_true ht.2
        refine ⟨⟨fun _ => ⟨v, loc, a, b, rfl, hloc, ha, hb, hane, hbne⟩, ?_⟩, ?_⟩
        · intro _ h
          exact Option.noConfusion h
        · intro la lo h
          injection h with h
          injection h with h1 h2
          exact ⟨v, loc, rfl, hloc, h1.symm, h2.symm⟩
      · rw [if_neg ht]
        refine ⟨⟨fun h => absurd rfl h, ?_⟩, ?_⟩
        · rintro ⟨v', loc', a, b, hv', hl', hla, hlb, hane, hbne⟩
          injection hv' with hv'
          subst hv'
          rw [hloc] at hl'
          injection hl' with hl'
          subst hl'
          intro _
          apply ht
          rw [Bool.and_eq_true]
          constructor
          · rw [hla]
            exact decide_eq_true hane
          · rw [hlb]
            exact decide_eq_true hbne
        · intro la lo h
          exact Option.noConfusion h

/-- Fixture venue whose coordinate strings are present but non-numeric. -/
def evBadCoords : RawEvent :=
  ⟨"e-bad", "Bad Coords", none, none, none, none, none,
    some [⟨some "Venue", none, some ⟨some "abc", some "xyz"⟩⟩]⟩

/-- C9 counterexample: latitude `"abc"` and longitude `"xyz"` are present but
do not parse as numbers, yet `coords` is populated — with both components NaN
(`none`) — refuting both the populated-iff-parses direction and the
"never a pair containing NaN" guarantee of the claim. -/
theorem c9_counterexample :
    (normalizeEvent evBadCoords).venue.coords = some (none, none) ∧
      jsNumberQ "abc" = none ∧ jsNumberQ "xyz" = none := by
  decide

/-- C9 witness (for the amended claim), instantiated at the NaN fixture:
`coords` is populated because both fields are present and non-empty, and its
components are exactly the `Number()` coercions of the two strings. -/
theorem c9_witness :
    (¬ (normalizeEvent evBadCoords).venue.coords = none ↔
      ∃ v loc a b, firstVenue evBadCoords = some v ∧ v.location = some loc ∧
        loc.latitude = some a ∧ loc.longitude = some b ∧ ¬ a = "" ∧ ¬ b = "") ∧
    (∀ la lo, (normalizeEvent evBadCoords).venue.coords = some (la, lo) →
      ∃ v loc, firstVenue evBadCoords = some v ∧ v.location = some loc ∧
        la = jsNumberQ (loc.latitude.getD "") ∧ lo = jsNumberQ (loc.longitude.getD "")) :=
  c9_coords_truthiness evBadCoords

/-- The upstream URL a response body carries, when it carries one (only the
debug body and the upstream-failure body embed `tmUrl`). -/
def urlOfBody : Body → Option TmParams
  | Body.debugInfo _ _ u => some u
  | Body.tmFailed _ u => some u
  | _ => none

/-- Fixture request identical to `rawC2` but carrying the debug flag. -/
def rawC10 : RawQuery :=
  ⟨none, none, none, none, some "2025-07-01", some "2025-07-05", none, none, some "1"⟩

/-- Fixture cache holding a fresh entry under exactly the fingerprint
`rawC10` resolves to. -/
def cacheC10 : Cache :=
  cacheInsert emptyCache ⟨none, none, none, 25, 1751328000000, some 1751759999000, 0⟩
    ⟨0, Body.data ⟨[], ⟨0, 0, 0⟩⟩⟩

/-- C10 counterexample: a request with the debug flag set whose fingerprint
has a fresh cache entry is answered from the cache — the debug flag is not
part of the fingerprint and is checked only after the lookup — so its
response body is the cached success payload and contains no upstream URL (and
hence no API key), refuting "every debug request exposes the URL". -/
theorem c10_counterexample :
    (GET 0 0 dpFix (some "key") fetchBoth rawC10 cacheC10).out =
        Outcome.resp 200 (Body.data ⟨[], ⟨0, 0, 0⟩⟩) ∧
      urlOfBody (Body.data ⟨[], ⟨0, 0, 0⟩⟩) = none := by
  decide

/-- C10 (amended): a debug-flagged request that actually reaches URL
construction (valid query, configured key, window resolved, and no fresh
cache hit — the lookup runs first and shadows the debug hook) returns the
`{startISO, endISO, tmUrl}` body, and every upstream non-2xx outcome returns
a body embedding `tmUrl`; in both cases the URL carries the configured API
key as its `apikey` query parameter. -/
theorem c10_url_exposure (tz now : Int) (dp : String → Option Int) (key : String)
    (fetchTM : TmParams → Fetched) (raw : RawQuery) (c : Cache)
    (pq : ParsedQuery) (s : Int) (e : Option Int)
    (hv : validateQuery raw = some pq)
    (hw : normalizeWindow tz now pq.fromP pq.toP = some (s, e))
    (hl : (if raw.nocache = some "1" then none else lookupHit c now (mkKey pq s e)) = none) :
    (raw.debug = some "1" →
      (GET tz now dp (some key) fetchTM raw c).out =
          Outcome.resp 200 (Body.debugInfo s e (mkTmParams key pq s e)) ∧
        urlOfBody (Body.debugInfo s e (mkTmParams key pq s e)) =
          some (mkTmParams key pq s e) ∧
        (mkTmParams key pq s e).apikey = key) ∧
    (∀ st det, ¬ raw.debug = some "1" →
      fetchTM (mkTmParams key pq s e) = Fetched.err st det →
      (GET tz now dp (some key) fetchTM raw c).out =
          Outcome.resp st (Body.tmFailed det (mkTmParams key pq s e)) ∧
        urlOfBody (Body.tmFailed det (mkTmParams key pq s e)) =
          some (mkTmParams key pq s e) ∧
        (mkTmParams key pq s e).apikey = key) := by
  constructor
  · intro hd
    rw [GET_eq_getWithQuery hv, getWithQuery_eq hw, getWithWindow_miss hl,
      getMiss_debug hd]
    exact ⟨rfl, rfl, rfl⟩
  · intro st det hd hf
    rw [GET_eq_getWithQuery hv, getWithQuery_eq hw, getWithWindow_miss hl,
      getMiss_err hd hf]
    exact ⟨rfl, rfl, rfl⟩

/-- C10 witness (for the amended claim): against the empty cache, the debug
request `rawC10` returns the resolved window and the upstream URL whose
`apikey` parameter is the configured key. -/
theorem c10_witness :
    (GET 0 0 dpFix (some "key") fetchBoth rawC10 emptyCache).out =
        Outcome.resp 200 (Body.debugInfo 1751328000000 (some 1751759999000)
          (mkTmParams "key"
            ⟨none, none, none, 25, some "2025-07-01", some "2025-07-05", 0⟩
            1751328000000 (some 1751759999000))) ∧
      urlOfBody (Body.debugInfo 1751328000000 (some 1751759999000)
          (mkTmParams "key"
            ⟨none, none, none, 25, some "2025-07-01", some "2025-07-05", 0⟩
            1751328000000 (some 1751759999000))) =
        some (mkTmParams "key"
          ⟨none, none, none, 25, some "2025-07-01", some "2025-07-05", 0⟩
          1751328000000 (some 1751759999000)) ∧
      (mkTmParams "key"
        ⟨none, none, none, 25, some "2025-07-01", some "2025-07-05", 0⟩
        1751328000000 (some 1751759999000)).apikey = "key" :=
  (c10_url_exposure 0 0 dpFix "key" fetchBoth rawC10 emptyCache
    ⟨none, none, none, 25, some "2025-07-01", some "2025-07-05", 0⟩
    1751328000000 (some 1751759999000)
    (by decide) (by decide) (by decide)).1 (by decide)

end EventsApi
